import Mathlib

/-!
Verification of the ShadowHunter probing engine (src/ShadowHunter.py).

The Python program is shallowly embedded: HTTP transport is a function
`fetch : String → Option Response` (`none` models a raised
`requests.RequestException` / network failure), the lxml title extractor
`_title_from_html` is an abstract parameter `titleOf : String → String`
(it is an external library; probes only consume its result), and the MD5
function from `hashlib` is an abstract parameter `md5hex`.  Dictionaries
of string evidence are association lists in insertion order.
-/

namespace ShadowHunter

/-- An HTTP response as the probes observe it: `status_code` and body text.
(`r.text` and `r.content` both carry the document; we use one body string.) -/
structure Response where
  status : Nat
  body : String
  deriving Repr, DecidableEq

/-- Evidence mapping (Python dict of strings, in insertion order). -/
abbrev Meta := List (String × String)

/-- Python `s.lower()` restricted to ASCII letters (the fragment the probes use). -/
def pyLower (s : String) : String := String.mk (s.data.map Char.toLower)

/-- Python whitespace test for `str.strip()` (common ASCII whitespace). -/
def pySpace (c : Char) : Bool := c = ' ' ∨ c = '\t' ∨ c = '\n' ∨ c = '\r'

/-- Python `s.strip()`: drop leading and trailing whitespace. -/
def pyStrip (s : String) : String :=
  String.mk (((s.data.dropWhile pySpace).reverse.dropWhile pySpace).reverse)

/-- Does `needle` occur as a contiguous run inside `hay`? -/
def containsSubL (needle : List Char) : List Char → Bool
  | [] => needle.isEmpty
  | c :: cs => needle.isPrefixOf (c :: cs) || containsSubL needle cs

/-- Python substring containment `needle in hay`. -/
def containsSub (hay needle : String) : Bool :=
  containsSubL needle.data hay.data

/-- Python `str.format` with the single placeholder `{u}`:
replace every occurrence of `{u}` (chars 123, 'u', 125) by `u`. -/
def replaceU (u : String) : List Char → List Char
  | a :: b :: c :: rest =>
    if a = Char.ofNat 123 ∧ b = 'u' ∧ c = Char.ofNat 125 then
      u.data ++ replaceU u rest
    else a :: replaceU u (b :: c :: rest)
  | a :: rest => a :: replaceU u rest
  | [] => []

/-- `url_template.format(u=username)`. -/
def formatU (template u : String) : String := String.mk (replaceU u template.data)

/-- The fixed negative-phrase tuple of `check_generic` (source line 91). -/
def negativePhrases : List String :=
  ["not found", "page not found", "user not found", "no such user", "sorry, this page"]

/-- `check_generic(session, url_template, username)` (source lines 83–101).
`fetch` models `session.get`; `none` models a `requests.RequestException`.
`titleOf` models `_title_from_html`. -/
def check_generic (titleOf : String → String) (fetch : String → Option Response)
    (url_template username : String) : Bool × Meta :=
  let url := formatU url_template username
  match fetch url with
  | none => (false, [])
  | some r =>
    if r.status = 404 then (false, [])
    else
      let txt := pyLower r.body
      if negativePhrases.any (fun p => containsSub txt p) then (false, [])
      else
        let title := titleOf r.body
        if title ≠ "" then (true, [("title", title), ("source", "generic-title")])
        else (decide (r.status = 200), [])

/-- Outcome of invoking a platform checker function: either the returned
`(exists, meta)` pair, or a raised exception carrying its message `str(e)`. -/
inductive ProbeResult where
  | ok : Bool → Meta → ProbeResult
  | err : String → ProbeResult
  deriving Repr, DecidableEq

/-- `GENERIC_TEMPLATES` (source lines 312–319). -/
def GENERIC_TEMPLATES : List (String × String) :=
  [("github", "https://github.com/{u}"), ("gitlab", "https://gitlab.com/{u}"),
   ("reddit", "https://www.reddit.com/user/{u}/"),
   ("stack_overflow", "https://stackoverflow.com/users/story/{u}"),
   ("tiktok", "https://www.tiktok.com/@{u}"), ("youtube", "https://www.youtube.com/@{u}"),
   ("medium", "https://medium.com/@{u}"), ("devto", "https://dev.to/{u}"),
   ("pinterest", "https://www.pinterest.com/{u}/"), ("soundcloud", "https://soundcloud.com/{u}"),
   ("vimeo", "https://vimeo.com/{u}"), ("steam", "https://steamcommunity.com/id/{u}"),
   ("keybase", "https://keybase.io/{u}"), ("instagram", "https://www.instagram.com/{u}/"),
   ("facebook", "https://www.facebook.com/{u}"), ("x", "https://x.com/{u}"),
   ("kaggle", "https://www.kaggle.com/{u}"),
   ("hackernews", "https://news.ycombinator.com/user?id={u}"),
   ("linkedin", "https://www.linkedin.com/in/{u}/")]

/-- `GENERIC_TEMPLATES.get(platform, "{u}")`. -/
def templateFor (platform : String) : String :=
  (GENERIC_TEMPLATES.lookup platform).getD "{u}"

/-- One result record of `worker_check` (the Python dict with keys
`platform, url, exists, meta` and optional `skipped`; a missing `skipped`
key is modelled as `skipped = false`). -/
structure CheckRecord where
  platform : String
  url : String
  exists? : Option Bool
  meta : Meta
  skipped : Bool
  deriving Repr, DecidableEq

/-- `worker_check(session, platform, username, delay)` (source lines 332–351).

The global `STOP` flag, set asynchronously by the SIGINT handler, is modelled
as a schedule `stop : Nat → Bool` consulted at discrete observation points;
`t` is the index of this check's read of `STOP`.  The platform checker
dispatched through `PLATFORM_CHECKERS` (or the `check_generic` fallback for
unregistered platforms) is abstracted as `probe : platform → ProbeResult`;
a `ProbeResult.err` is the exception caught by the `except` clause at
source line 347.  The console prints and `time.sleep(delay)` have no effect
on the returned record and are omitted. -/
def worker_check (stop : Nat → Bool) (t : Nat) (probe : String → ProbeResult)
    (username platform : String) : CheckRecord :=
  let url := formatU (templateFor platform) username
  if stop t then
    ⟨platform, url, none, [], true⟩
  else
    match probe platform with
    | .ok b m => ⟨platform, url, some b, m, false⟩
    | .err e => ⟨platform, url, some false, [("error", e)], false⟩

/-- The record `worker_check` produces when the stop flag is clear. -/
def runRecord (probe : String → ProbeResult) (username platform : String) : CheckRecord :=
  match probe platform with
  | .ok b m => ⟨platform, formatU (templateFor platform) username, some b, m, false⟩
  | .err e =>
    ⟨platform, formatU (templateFor platform) username, some false, [("error", e)], false⟩

/-- The skipped record `worker_check` produces when the stop flag is set. -/
def skipRecord (username platform : String) : CheckRecord :=
  ⟨platform, formatU (templateFor platform) username, none, [], true⟩

/-- The `scan_username` loop body (source lines 354–360) with an explicit
read counter: the iteration for one platform reads `STOP` at time `t`
(inside `worker_check`) and at `t + 1` (the loop's `if STOP: break`), so the
next iteration starts at `t + 2`. -/
def scan_go (stop : Nat → Bool) (probe : String → ProbeResult) (username : String) :
    List String → Nat → List CheckRecord
  | [], _ => []
  | p :: ps, t =>
    let r := worker_check stop t probe username p
    if stop (t + 1) then [r]
    else r :: scan_go stop probe username ps (t + 2)

/-- `scan_username(session, username, platforms, delay)` (source lines 354–360). -/
def scan_username (stop : Nat → Bool) (probe : String → ProbeResult)
    (username : String) (platforms : List String) : List CheckRecord :=
  scan_go stop probe username platforms 0

/-- A monotone stop schedule: the flag is observed set from read index `τ`
on (the SIGINT handler only ever sets `STOP`, never clears it). -/
def stopFrom (τ : Nat) : Nat → Bool := fun t => decide (τ ≤ t)

/-- Python string comparison: lexicographic on code points. -/
def lexLe : List Char → List Char → Bool
  | [], _ => true
  | _ :: _, [] => false
  | a :: as, b :: bs =>
    if a.toNat < b.toNat then true
    else if b.toNat < a.toNat then false
    else lexLe as bs

/-- The order Python's `sorted` uses on strings. -/
def pyLe (a b : String) : Prop := lexLe a.data b.data = true

instance : DecidableRel pyLe := fun a b =>
  inferInstanceAs (Decidable (lexLe a.data b.data = true))

instance : IsTotal String pyLe where
  total := by
    have h : ∀ as bs : List Char, lexLe as bs = true ∨ lexLe bs as = true := by
      intro as
      induction as with
      | nil => intro bs; left; rfl
      | cons a as ih =>
        intro bs
        cases bs with
        | nil => right; rfl
        | cons b bs =>
          rcases Nat.lt_trichotomy a.toNat b.toNat with hlt | heq | hgt
          · left; simp [lexLe, hlt]
          · rcases ih bs with h1 | h1
            · left; simp [lexLe, heq, h1]
            · right; simp [lexLe, heq, h1]
          · right; simp [lexLe, hgt]
    exact fun a b => h a.data b.data

instance : IsTrans String pyLe where
  trans := by
    have h : ∀ as bs cs : List Char,
        lexLe as bs = true → lexLe bs cs = true → lexLe as cs = true := by
      intro as
      induction as with
      | nil => intro bs cs _ _; rfl
      | cons a as ih =>
        intro bs cs h1 h2
        cases bs with
        | nil => simp [lexLe] at h1
        | cons b bs =>
          cases cs with
          | nil => simp [lexLe] at h2
          | cons c cs =>
            by_cases hab : a.toNat < b.toNat
            · by_cases hbc : b.toNat < c.toNat
              · simp [lexLe, Nat.lt_trans hab hbc]
              · by_cases hcb : c.toNat < b.toNat
                · simp [lexLe, hbc, hcb] at h2
                · have hac : a.toNat < c.toNat := by omega
                  simp [lexLe, hac]
            · by_cases hba : b.toNat < a.toNat
              · simp [lexLe, hab, hba] at h1
              · have h1' : lexLe as bs = true := by simpa [lexLe, hab, hba] using h1
                by_cases hbc : b.toNat < c.toNat
                · have hac : a.toNat < c.toNat := by omega
                  simp [lexLe, hac]
                · by_cases hcb : c.toNat < b.toNat
                  · simp [lexLe, hbc, hcb] at h2
                  · have h2' : lexLe bs cs = true := by simpa [lexLe, hbc, hcb] using h2
                    have hac : ¬a.toNat < c.toNat := by omega
                    have hca : ¬c.toNat < a.toNat := by omega
                    simp [lexLe, hac, hca, ih bs cs h1' h2']
    exact fun a b c => h a.data b.data c.data

/-- The delimiter class of `re.split(r"[.\-_+]", local)` (source line 378). -/
def isDelim (c : Char) : Bool := c = '.' ∨ c = '-' ∨ c = '_' ∨ c = '+'

def pySplitAux (p : Char → Bool) : List Char → List Char → List String
  | [], acc => [String.mk acc.reverse]
  | c :: cs, acc =>
    if p c then String.mk acc.reverse :: pySplitAux p cs []
    else pySplitAux p cs (c :: acc)

/-- `re.split` on a single-character class: split at every delimiter
occurrence, keeping empty pieces (`re.split(r"[.\-_+]", ".a.b") ==
['', 'a', 'b']`). -/
def pySplit (p : Char → Bool) (s : String) : List String := pySplitAux p s.data []

/-- `email.split("@", 1)[0]`: the part before the first `@` (the whole
string when there is no `@`). -/
def localPart (email : String) : String :=
  String.mk (email.data.takeWhile (fun c => c ≠ '@'))

/-- The candidate pool built at source lines 377–384 before dedup/sort/cap:
`cands = {local}`, and when `len(parts) >= 2` with `first = parts[0]` and
`last = parts[-1]` both non-empty (Python truthiness of `first and last`),
also the four variants `first+last`, `first_last`, `first.last`,
`first[0]+last`.  The Python `set` is modelled as a list that is
deduplicated below. -/
def candPool (email : String) : List String :=
  if 2 ≤ (pySplit isDelim (localPart email)).length then
    if (pySplit isDelim (localPart email)).headD "" ≠ "" ∧
        (pySplit isDelim (localPart email)).getLastD "" ≠ "" then
      [localPart email,
       (pySplit isDelim (localPart email)).headD "" ++
         (pySplit isDelim (localPart email)).getLastD "",
       (pySplit isDelim (localPart email)).headD "" ++ "_" ++
         (pySplit isDelim (localPart email)).getLastD "",
       (pySplit isDelim (localPart email)).headD "" ++ "." ++
         (pySplit isDelim (localPart email)).getLastD "",
       String.mk (((pySplit isDelim (localPart email)).headD "").data.take 1) ++
         (pySplit isDelim (localPart email)).getLastD ""]
    else [localPart email]
  else [localPart email]

/-- `sorted(list(cands))` (source line 385): distinct candidates in Python
string order. -/
def sortedCandidates (email : String) : List String :=
  (candPool email).dedup.insertionSort pyLe

/-- The derived candidate list of `scan_email` (source lines 375–385):
`sorted(list(cands))[:8]`. -/
def deriveCandidates (email : String) : List String :=
  (sortedCandidates email).take 8

/-- Python `str.isdigit` on the ASCII fragment: non-empty and all decimal
digits. -/
def pyIsDigit (s : String) : Bool := !s.data.isEmpty && s.data.all Char.isDigit

/-- `check_stackoverflow(session, username)` (source lines 147–163),
instrumented with the list of URLs actually requested (second component).
`fetch`/`titleOf` are as in `check_generic`.  Note: at source line 161
Python's conditional-expression precedence makes the returned meta the tuple
`(True, {})` when no title is extracted; the `exists` flag is modelled
faithfully and that malformed meta is modelled as `[]`. -/
def check_stackoverflow (titleOf : String → String) (fetch : String → Option Response)
    (username : String) : (Bool × Meta) × List String :=
  if !pyIsDigit username then ((false, []), [])
  else
    let url := "https://stackoverflow.com/users/" ++ username
    match fetch url with
    | none => ((false, []), [url])
    | some r =>
      if r.status = 404 then ((false, []), [url])
      else
        let txt := pyLower r.body
        if ["user deleted", "page not found", "profile not found"].any
            (fun p => containsSub txt p) then ((false, []), [url])
        else
          let title := titleOf r.body
          if title ≠ "" then
            ((true, [("source", "stackoverflow-html"), ("title", title)]), [url])
          else ((true, []), [url])

/-- The gravatar lookup key (source line 365):
`hashlib.md5(email.strip().lower().encode()).hexdigest()`.  `hashlib.md5`
is an external library, abstracted as `md5hex` over the UTF-8 bytes. -/
def gravatarKey (md5hex : ByteArray → String) (email : String) : String :=
  md5hex (String.toUTF8 (pyLower (pyStrip email)))

/-- `jurl` at source line 366. -/
def gravatar_json_url (md5hex : ByteArray → String) (email : String) : String :=
  "https://www.gravatar.com/" ++ gravatarKey md5hex email ++ ".json"

end ShadowHunter

namespace ShadowHunter

/-- C1: The generic probe classifies as the spec states: transport failure ⇒ Absent;
status 404 ⇒ Absent; else a lowercased body containing a fixed negative phrase
(among them "user not found") ⇒ Absent; else a non-empty extractable title ⇒
Present with evidence `title` and `source = "generic-title"`; else Present iff
status 200. -/
theorem claim_C1_generic_classification
    (titleOf : String → String) (fetch : String → Option Response)
    (tmpl u : String) :
    ("user not found" ∈ negativePhrases) ∧
    (fetch (formatU tmpl u) = none → check_generic titleOf fetch tmpl u = (false, [])) ∧
    (∀ r, fetch (formatU tmpl u) = some r →
      (r.status = 404 → check_generic titleOf fetch tmpl u = (false, [])) ∧
      (r.status ≠ 404 → negativePhrases.any (fun p => containsSub (pyLower r.body) p) = true →
        check_generic titleOf fetch tmpl u = (false, [])) ∧
      (r.status ≠ 404 → negativePhrases.any (fun p => containsSub (pyLower r.body) p) = false →
        titleOf r.body ≠ "" →
        check_generic titleOf fetch tmpl u =
          (true, [("title", titleOf r.body), ("source", "generic-title")])) ∧
      (r.status ≠ 404 → negativePhrases.any (fun p => containsSub (pyLower r.body) p) = false →
        titleOf r.body = "" →
        ((check_generic titleOf fetch tmpl u).1 = true ↔ r.status = 200))) := by
  refine ⟨by decide, ?_, ?_⟩
  · intro h
    simp [check_generic, h]
  · intro r hr
    refine ⟨?_, ?_, ?_, ?_⟩
    · intro h404
      simp [check_generic, hr, h404]
    · intro h404 hneg
      simp [check_generic, hr, h404, hneg]
    · intro h404 hneg htitle
      simp [check_generic, hr, h404, hneg, htitle]
    · intro h404 hneg htitle
      simp [check_generic, hr, h404, hneg, htitle]

/-- Witness for C1: a concrete transport failure is classified Absent. -/
theorem claim_C1_witness :
    check_generic (fun _ => "") (fun _ => none) "https://github.com/{u}" "alice"
      = (false, []) :=
  (claim_C1_generic_classification (fun _ => "") (fun _ => none)
    "https://github.com/{u}" "alice").2.1 rfl

/-- With the stop flag clear, `worker_check` produces the completed record. -/
theorem worker_check_of_not_stop {stop : Nat → Bool} {t : Nat}
    (probe : String → ProbeResult) (u p : String) (h : stop t = false) :
    worker_check stop t probe u p = runRecord probe u p := by
  cases hp : probe p <;> simp [worker_check, runRecord, h, hp]

/-- With the stop flag set, `worker_check` produces the skipped record. -/
theorem worker_check_of_stop {stop : Nat → Bool} {t : Nat}
    (probe : String → ProbeResult) (u p : String) (h : stop t = true) :
    worker_check stop t probe u p = skipRecord u p := by
  simp [worker_check, skipRecord, h]

/-- A completed record is not marked skipped. -/
theorem runRecord_skipped (probe : String → ProbeResult) (u p : String) :
    (runRecord probe u p).skipped = false := by
  cases hp : probe p <;> simp [runRecord, hp]

/-- A completed record carries its platform name. -/
theorem runRecord_platform (probe : String → ProbeResult) (u p : String) :
    (runRecord probe u p).platform = p := by
  cases hp : probe p <;> simp [runRecord, hp]

/-- A completed record always has a definite existence verdict. -/
theorem runRecord_exists (probe : String → ProbeResult) (u p : String) :
    ∃ b, (runRecord probe u p).exists? = some b := by
  cases hp : probe p with
  | ok b m => exact ⟨b, by simp [runRecord, hp]⟩
  | err e => exact ⟨false, by simp [runRecord, hp]⟩

/-- If the stop flag is never observed set, the scan loop completes every
platform in order. -/
theorem scan_go_of_no_stop {stop : Nat → Bool} (h : ∀ t, stop t = false)
    (probe : String → ProbeResult) (u : String) :
    ∀ (ps : List String) (t : Nat),
      scan_go stop probe u ps t = ps.map (runRecord probe u) := by
  intro ps
  induction ps with
  | nil => intro t; rfl
  | cons p ps ih =>
    intro t
    simp [scan_go, h (t + 1), worker_check_of_not_stop probe u p (h t), ih (t + 2)]

/-- C3: When cancellation is never signaled, `scan_username` returns exactly
one record per input platform, and the platform fields of the records equal
the input platform list in the same order. -/
theorem claim_C3_order_preserved (stop : Nat → Bool) (probe : String → ProbeResult)
    (username : String) (platforms : List String) (h : ∀ t, stop t = false) :
    (scan_username stop probe username platforms).length = platforms.length ∧
    (scan_username stop probe username platforms).map (fun r => r.platform) = platforms := by
  unfold scan_username
  rw [scan_go_of_no_stop h probe username platforms 0]
  refine ⟨by simp, ?_⟩
  rw [List.map_map]
  have : ((fun r : CheckRecord => r.platform) ∘ runRecord probe username) = id := by
    funext p
    simp [runRecord_platform]
  rw [this, List.map_id]

/-- Witness for C3: a two-platform scan with the flag never set yields the
two platforms in input order. -/
theorem claim_C3_witness :
    (scan_username (fun _ => false) (fun _ => ProbeResult.ok true []) "alice"
        ["github", "gitlab"]).map (fun r => r.platform) = ["github", "gitlab"] :=
  (claim_C3_order_preserved (fun _ => false) (fun _ => ProbeResult.ok true [])
    "alice" ["github", "gitlab"] (fun _ => rfl)).2

/-- C5: `worker_check` yields the Unknown outcome (`exists = None`, record
marked skipped, probe not consulted) iff the cancellation flag is set when
the check starts; otherwise the outcome is a definite Present/Absent. -/
theorem claim_C5_unknown_iff_cancelled (stop : Nat → Bool) (t : Nat)
    (probe : String → ProbeResult) (u p : String) :
    ((worker_check stop t probe u p).exists? = none ↔ stop t = true) ∧
    ((worker_check stop t probe u p).skipped = stop t) ∧
    (stop t = true → ∀ probe' : String → ProbeResult,
      worker_check stop t probe' u p = worker_check stop t probe u p) ∧
    (stop t = false → ∃ b, (worker_check stop t probe u p).exists? = some b) := by
  cases h : stop t with
  | true =>
    refine ⟨?_, ?_, fun _ probe' => ?_, fun hf => by simp [h] at hf⟩
    · simp [worker_check_of_stop probe u p h, skipRecord]
    · simp [worker_check_of_stop probe u p h, skipRecord]
    · rw [worker_check_of_stop probe' u p h, worker_check_of_stop probe u p h]
  | false =>
    obtain ⟨b, hb⟩ := runRecord_exists probe u p
    refine ⟨?_, ?_, fun htr => by simp [h] at htr, fun _ => ⟨b, ?_⟩⟩
    · rw [worker_check_of_not_stop probe u p h, hb]; simp
    · rw [worker_check_of_not_stop probe u p h, runRecord_skipped]
    · rw [worker_check_of_not_stop probe u p h]; exact hb

/-- Witness for C5: with the flag set at the check's start the record has no
existence verdict. -/
theorem claim_C5_witness :
    (worker_check (fun _ => true) 0 (fun _ => ProbeResult.ok true [])
      "alice" "github").exists? = none :=
  (claim_C5_unknown_iff_cancelled (fun _ => true) 0 (fun _ => ProbeResult.ok true [])
    "alice" "github").1.mpr rfl

/-- C6: an exception raised inside the probe is caught by `worker_check` and
converted to an Absent record whose evidence carries the error text; a record
is always returned (`worker_check` is a total function). -/
theorem claim_C6_exception_to_absent (stop : Nat → Bool) (t : Nat)
    (probe : String → ProbeResult) (u p e : String)
    (hstop : stop t = false) (herr : probe p = ProbeResult.err e) :
    worker_check stop t probe u p =
      ⟨p, formatU (templateFor p) u, some false, [("error", e)], false⟩ := by
  rw [worker_check_of_not_stop probe u p hstop]
  simp [runRecord, herr]

/-- Witness for C6: a probe raising "boom" yields a concrete Absent record
with the error text as evidence. -/
theorem claim_C6_witness :
    worker_check (fun _ => false) 0 (fun _ => ProbeResult.err "boom") "alice" "github" =
      ⟨"github", "https://github.com/alice", some false, [("error", "boom")], false⟩ := by
  rw [claim_C6_exception_to_absent (fun _ => false) 0 (fun _ => ProbeResult.err "boom")
    "alice" "github" "boom" rfl rfl]
  decide

/-- Once the flag is observed set, the loop records one skipped entry for the
next platform (if any) and stops. -/
theorem scan_go_of_stopped (probe : String → ProbeResult) (u : String) (τ : Nat) :
    ∀ (ps : List String) (t : Nat), τ ≤ t →
      scan_go (stopFrom τ) probe u ps t = (ps.take 1).map (skipRecord u) := by
  intro ps t h
  cases ps with
  | nil => rfl
  | cons p ps =>
    have h1 : stopFrom τ t = true := by simp [stopFrom]; omega
    have h2 : stopFrom τ (t + 1) = true := by simp [stopFrom]; omega
    simp [scan_go, h2, worker_check_of_stop probe u p h1]

/-- Characterization of the loop when the flag becomes observable after the
probe of the `k`-th remaining platform completes: all platforms up to index
`k` finish, followed by at most one skipped entry (exactly when the loop's
own check still read the flag clear). -/
theorem scan_go_cancel_after (probe : String → ProbeResult) (u : String) (τ : Nat) :
    ∀ (k : Nat) (ps : List String) (t : Nat), k < ps.length →
      (τ = t + 2 * k + 1 ∨ τ = t + 2 * k + 2) →
      scan_go (stopFrom τ) probe u ps t =
        (ps.take (k + 1)).map (runRecord probe u) ++
          (if τ = t + 2 * k + 2 then ((ps.drop (k + 1)).take 1).map (skipRecord u)
           else []) := by
  intro k
  induction k with
  | zero =>
    intro ps t hk hτ
    match ps, hk with
    | p :: ps, _ =>
      have h0 : stopFrom τ t = false := by simp [stopFrom]; omega
      rcases hτ with hτ | hτ
      · have h1 : stopFrom τ (t + 1) = true := by simp [stopFrom]; omega
        have hne : ¬(τ = t + 2 * 0 + 2) := by omega
        rw [if_neg hne]
        simp [scan_go, h1, worker_check_of_not_stop probe u p h0]
      · have h1 : stopFrom τ (t + 1) = false := by simp [stopFrom]; omega
        have heq : τ = t + 2 * 0 + 2 := by omega
        rw [if_pos heq]
        simp [scan_go, h1, worker_check_of_not_stop probe u p h0,
          scan_go_of_stopped probe u τ ps (t + 2) (by omega)]
  | succ k ih =>
    intro ps t hk hτ
    match ps, hk with
    | p :: ps, hk =>
      have h0 : stopFrom τ t = false := by simp [stopFrom]; omega
      have h1 : stopFrom τ (t + 1) = false := by simp [stopFrom]; omega
      have hk' : k < ps.length := by simp at hk; omega
      have hτ' : τ = (t + 2) + 2 * k + 1 ∨ τ = (t + 2) + 2 * k + 2 := by omega
      have hcond : (τ = t + 2 * (k + 1) + 2) ↔ (τ = (t + 2) + 2 * k + 2) := by omega
      simp [scan_go, h1, worker_check_of_not_stop probe u p h0, ih ps (t + 2) hk' hτ',
        hcond]

/-- C4: if cancellation is first observable at read `τ ∈ {2k+1, 2k+2}` — i.e.
it is signaled after the probe of platform index `k` completes and before
platform `k+1`'s probe starts — then the scan output restricted to the first
`k` positions is exactly the `k` completed records of the platforms before
index `k` in input order, platform `k`'s completed record is also retained
(nothing collected before the cancellation is discarded), and none of these
records is skipped. -/
theorem claim_C4_cancellation_preserved (probe : String → ProbeResult)
    (u : String) (platforms : List String) (k τ : Nat)
    (hk : k < platforms.length) (hτ : τ = 2 * k + 1 ∨ τ = 2 * k + 2) :
    ((scan_username (stopFrom τ) probe u platforms).take k =
        (platforms.take k).map (runRecord probe u)) ∧
    (((scan_username (stopFrom τ) probe u platforms).take k).length = k) ∧
    ((scan_username (stopFrom τ) probe u platforms).take (k + 1) =
        (platforms.take (k + 1)).map (runRecord probe u)) ∧
    (∀ r ∈ (scan_username (stopFrom τ) probe u platforms).take (k + 1),
        r.skipped = false) := by
  have hτ0 : τ = 0 + 2 * k + 1 ∨ τ = 0 + 2 * k + 2 := by omega
  have hchar := scan_go_cancel_after probe u τ k platforms 0 hk hτ0
  have hAlen : ((platforms.take (k + 1)).map (runRecord probe u)).length = k + 1 := by
    simp
    omega
  have htake1 : (scan_username (stopFrom τ) probe u platforms).take (k + 1) =
      (platforms.take (k + 1)).map (runRecord probe u) := by
    unfold scan_username
    rw [hchar, List.take_append_eq_append_take, hAlen,
      List.take_of_length_le (le_of_eq hAlen), Nat.sub_self, List.take_zero,
      List.append_nil]
  have htake0 : (scan_username (stopFrom τ) probe u platforms).take k =
      (platforms.take k).map (runRecord probe u) := by
    have : (scan_username (stopFrom τ) probe u platforms).take k =
        ((scan_username (stopFrom τ) probe u platforms).take (k + 1)).take k := by
      rw [List.take_take]
      congr 1
      omega
    rw [this, htake1, ← List.map_take, List.take_take]
    congr 2
    omega
  refine ⟨htake0, ?_, htake1, ?_⟩
  · rw [htake0]
    simp
    omega
  · intro r hr
    rw [htake1] at hr
    obtain ⟨p, _, rfl⟩ := List.mem_map.mp hr
    exact runRecord_skipped probe u p

/-- Witness for C4: three platforms, cancellation observable from read 1
(right after platform 0's probe); the first record is platform 0's completed
record. -/
theorem claim_C4_witness :
    (scan_username (stopFrom 1) (fun _ => ProbeResult.ok true []) "alice"
        ["github", "gitlab", "reddit"]).take 1 =
      [runRecord (fun _ => ProbeResult.ok true []) "alice" "github"] :=
  (claim_C4_cancellation_preserved (fun _ => ProbeResult.ok true []) "alice"
    ["github", "gitlab", "reddit"] 0 1 (by decide) (Or.inl (by decide))).2.2.1

/-- The local part is always in the candidate pool. -/
theorem localPart_mem_candPool (email : String) : localPart email ∈ candPool email := by
  unfold candPool
  split
  · split <;> simp
  · simp

/-- The candidate pool holds at most five entries. -/
theorem candPool_length_le (email : String) : (candPool email).length ≤ 5 := by
  unfold candPool
  split
  · split <;> simp
  · simp

/-- The sorted deduplicated candidate list holds at most five entries. -/
theorem sortedCandidates_length_le (email : String) :
    (sortedCandidates email).length ≤ 5 := by
  unfold sortedCandidates
  rw [List.length_insertionSort]
  exact le_trans (List.Sublist.length_le (List.dedup_sublist _)) (candPool_length_le email)

/-- The `[:8]` cap is the identity on the candidate list. -/
theorem deriveCandidates_eq_sorted (email : String) :
    deriveCandidates email = sortedCandidates email :=
  List.take_of_length_le (le_trans (sortedCandidates_length_le email) (by omega))

/-- C9: for every email address the derived candidate list has no
duplicates, is sorted in Python's lexicographic string order, and has
length at most 8. -/
theorem claim_C9_candidate_invariants (email : String) :
    (deriveCandidates email).Nodup ∧
    List.Sorted pyLe (deriveCandidates email) ∧
    (deriveCandidates email).length ≤ 8 := by
  refine ⟨?_, ?_, ?_⟩
  · exact List.Nodup.sublist (List.take_sublist _ _)
      (((List.perm_insertionSort pyLe _).nodup_iff).mpr (List.nodup_dedup _))
  · exact List.Pairwise.sublist (List.take_sublist _ _)
      (List.sorted_insertionSort pyLe _)
  · exact List.length_take_le _ _

/-- C10: for every email address the derived candidate list has at most 5
elements (local part plus at most 4 variants), so the `[:8]` truncation
never removes a candidate. -/
theorem claim_C10_cap_never_truncates (email : String) :
    (deriveCandidates email).length ≤ 5 ∧
    deriveCandidates email = sortedCandidates email :=
  ⟨(deriveCandidates_eq_sorted email) ▸ sortedCandidates_length_le email,
   deriveCandidates_eq_sorted email⟩

/-- Counterexample for C2: for `".a.b@x.com"` the split `['', 'a', 'b']`
has two non-empty parts (`first = "a"`, `last = "b"`), yet the code
generates no variant at all (the derived set is just the local part and,
in particular, misses `first+last = "ab"`): the guard at source line 383
tests the raw `parts[0]`/`parts[-1]`, not the non-empty parts. -/
theorem claim_C2_counterexample :
    (((pySplit isDelim (localPart ".a.b@x.com")).filter (fun s => s ≠ "")).length = 2) ∧
    (((pySplit isDelim (localPart ".a.b@x.com")).filter (fun s => s ≠ "")).headD "" = "a") ∧
    (((pySplit isDelim (localPart ".a.b@x.com")).filter (fun s => s ≠ "")).getLastD "" = "b") ∧
    deriveCandidates ".a.b@x.com" = [".a.b"] ∧
    "ab" ∉ deriveCandidates ".a.b@x.com" := by decide

/-- C2 (amended): the deriver splits the part before `@` on `. - _ +` and
always includes the unmodified local part; whenever the split yields at
least 2 parts and both the first and the last raw part are non-empty, with
`first` the first part and `last` the last part, it derives exactly the
local part plus the four variants `first+last`, `first_last`, `first.last`
and `firstInitial+last`, deduplicated, sorted, capped at 8. -/
theorem claim_C2_amended_deriver :
    (∀ email, localPart email ∈ deriveCandidates email) ∧
    (∀ email, 2 ≤ (pySplit isDelim (localPart email)).length →
      (pySplit isDelim (localPart email)).headD "" ≠ "" →
      (pySplit isDelim (localPart email)).getLastD "" ≠ "" →
      deriveCandidates email =
        ([localPart email,
          (pySplit isDelim (localPart email)).headD "" ++
            (pySplit isDelim (localPart email)).getLastD "",
          (pySplit isDelim (localPart email)).headD "" ++ "_" ++
            (pySplit isDelim (localPart email)).getLastD "",
          (pySplit isDelim (localPart email)).headD "" ++ "." ++
            (pySplit isDelim (localPart email)).getLastD "",
          String.mk (((pySplit isDelim (localPart email)).headD "").data.take 1) ++
            (pySplit isDelim (localPart email)).getLastD ""
         ].dedup.insertionSort pyLe).take 8) := by
  constructor
  · intro email
    rw [deriveCandidates_eq_sorted]
    unfold sortedCandidates
    rw [(List.perm_insertionSort pyLe _).mem_iff, List.mem_dedup]
    exact localPart_mem_candPool email
  · intro email h2 hf hl
    unfold deriveCandidates sortedCandidates candPool
    rw [if_pos h2, if_pos ⟨hf, hl⟩]

/-- Witness for C2 (amended): `"john.doe@x.com"` derives exactly
`["jdoe", "john.doe", "john_doe", "johndoe"]`. -/
theorem claim_C2_witness :
    deriveCandidates "john.doe@x.com" = ["jdoe", "john.doe", "john_doe", "johndoe"] := by
  rw [claim_C2_amended_deriver.2 "john.doe@x.com" (by decide) (by decide) (by decide)]
  decide

/-- C7: the stack_overflow probe classifies any identifier that is not
entirely decimal digits as Absent without issuing any HTTP request (the
request log is empty, for every transport). -/
theorem claim_C7_nondigit_no_request (titleOf : String → String)
    (fetch : String → Option Response) (username : String)
    (h : ¬∀ c ∈ username.data, c.isDigit = true) :
    check_stackoverflow titleOf fetch username = ((false, []), []) := by
  have hall : username.data.all Char.isDigit = false := by
    cases hca : username.data.all Char.isDigit
    · rfl
    · exact absurd (fun c hc => List.all_eq_true.mp hca c hc) h
  simp [check_stackoverflow, pyIsDigit, hall]

/-- Witness for C7: `"alice"` is rejected without a request. -/
theorem claim_C7_witness :
    check_stackoverflow (fun _ => "") (fun _ => none) "alice" = ((false, []), []) :=
  claim_C7_nondigit_no_request (fun _ => "") (fun _ => none) "alice" (by decide)

/-- C8: the gravatar lookup key is the hex digest of the UTF-8 bytes of the
trimmed, lowercased email; in particular for `" Test@Example.com "` it is
the digest of `"test@example.com"`, for every digest function. -/
theorem claim_C8_gravatar_key (md5hex : ByteArray → String) :
    (∀ email, gravatarKey md5hex email =
        md5hex (String.toUTF8 (pyLower (pyStrip email)))) ∧
    gravatarKey md5hex " Test@Example.com " = md5hex (String.toUTF8 "test@example.com") := by
  refine ⟨fun _ => rfl, ?_⟩
  unfold gravatarKey
  have h : pyLower (pyStrip " Test@Example.com ") = "test@example.com" := by decide
  rw [h]

end ShadowHunter
